import Mathlib

/-!
Verification of the loss computation and diagnostic rendering of
`tensorflow_tts/examples/train_tacotron2.py` (class `Tacotron2Trainer`).

Tensors are embedded as (nested) lists of rationals; the stop-token
binary cross-entropy, which involves `log`/`exp`, takes values in `ℝ`.
A batched TensorFlow op that acts independently on the leading (batch)
axis is embedded as `List.zipWith` of the per-example computation.
-/

namespace TrainTacotron2

/-- A rank-2 slice of a rank-3 tensor: one example's matrix. -/
abbrev Mat : Type := List (List ℚ)

/-- A rank-1 slice of a rank-2 tensor: one example's vector. -/
abbrev Vec : Type := List ℚ

/-- The batch dictionary keys used by `compute_per_example_losses`
(`mel_gts` [B,T,F], `mel_lengths` [B], `g_attentions` [B,dec,enc]). -/
structure Batch where
  mel_gts : List Mat
  mel_lengths : List ℕ
  g_attentions : List Mat

/-- The model output tuple destructured at lines 155-160:
`(decoder_output, post_mel_outputs, stop_token_predictions, alignment_historys)`. -/
structure ModelOutputs where
  decoder_output : List Mat
  post_mel_outputs : List Mat
  stop_token_predictions : List Vec
  alignment_historys : List Mat

/-- The configuration entries read by `compute_per_example_losses`. -/
structure Config where
  use_fixed_shapes : Bool
  max_mel_length : ℕ

/-- Modelled from the spec: `calculate_3d_loss` (from `tensorflow_tts.utils`,
not under src/) with `loss_fn = MeanAbsoluteError(reduction=NONE)`; the spec
says the absolute-error loss is "reduced over all non-batch dimensions to a
per-example scalar".  Per row (time step): mean of the elementwise absolute
differences along the feature axis. -/
def maeRow (gt pred : Vec) : ℚ :=
  let d := List.zipWith (fun a b => |a - b|) gt pred
  d.sum / d.length

/-- Modelled from the spec: per-example L1 mel loss — the per-row means of
`maeRow` reduced by a further mean over the time axis, yielding one scalar
per example. -/
def mae3dLoss (gt pred : Mat) : ℚ :=
  let rows := List.zipWith maeRow gt pred
  rows.sum / rows.length

/-- The logistic sigmoid, applied inside the from-logits cross-entropy. -/
noncomputable def sigmoid (x : ℝ) : ℝ := 1 / (1 + Real.exp (-x))

/-- One element of `tf.keras.losses.BinaryCrossentropy(from_logits=True)`
(line 85-87): TensorFlow's numerically stable form of the sigmoid
cross-entropy on a raw logit `x` and label `y`,
`max(x, 0) - x * y + log(1 + exp(-|x|))`. -/
noncomputable def bceElem (y x : ℚ) : ℝ :=
  max (x : ℝ) 0 - (x : ℝ) * (y : ℝ) + Real.log (1 + Real.exp (-|(x : ℝ)|))

/-- Modelled from the spec: `calculate_2d_loss` (from `tensorflow_tts.utils`,
not under src/) with the from-logits binary cross-entropy: the elementwise
cross-entropy "reduced per example to a scalar" — the mean over the time
axis of `bceElem`. -/
noncomputable def stopTokenLossPerExample (labels logits : Vec) : ℝ :=
  let elems := List.zipWith bceElem labels logits
  elems.sum / (elems.length : ℝ)

/-- Lines 170-174: `max_mel_length` is the scalar
`tf.reduce_max(batch["mel_lengths"])` when `use_fixed_shapes is False`
and the one-element python list `[config["max_mel_length"]]` otherwise;
both are embedded as lists (the scalar as a singleton). -/
def max_mel_length (cfg : Config) (mel_lengths : List ℕ) : List ℕ :=
  if cfg.use_fixed_shapes = false then [mel_lengths.foldr max 0]
  else [cfg.max_mel_length]

/-- The bound `tf.reduce_max(max_mel_length)` of the `tf.range` at line 176:
the time dimension T of the stop-token ground truth. -/
def stopGtsT (cfg : Config) (mel_lengths : List ℕ) : ℕ :=
  (max_mel_length cfg mel_lengths).foldr max 0

/-- Lines 175-184: the stop-token ground truth.  `tf.range T` is tiled to
`[B, T]` and compared with `mel_lengths[:, None]`; position t of example i
is `1.0` iff `mel_lengths[i] <= t` (`tf.math.greater_equal`), else `0.0`. -/
def stopGts (cfg : Config) (mel_lengths : List ℕ) : List Vec :=
  mel_lengths.map (fun len =>
    (List.range (stopGtsT cfg mel_lengths)).map (fun t =>
      if len ≤ t then (1 : ℚ) else 0))

/-- Lines 191-197, one row of one example: the summand
`tf.abs(alignment_historys * g_attentions) * attention_masks`, where the
mask (lines 191-193) is `cast(not_equal(g_attentions, -1.0), float32)`. -/
def guidedAttRowTerms (a g : Vec) : List ℚ :=
  List.zipWith (fun x y => |x * y| * (if y = -1 then 0 else 1)) a g

/-- Lines 194-197 for one example: the masked absolute products summed over
the two non-batch axes (`axis=[1, 2]`). -/
def attNumer (a g : Mat) : ℚ :=
  ((List.zipWith guidedAttRowTerms a g).map List.sum).sum

/-- Line 198 denominator for one example:
`tf.reduce_sum(attention_masks, axis=[1, 2])`, the number of positions of
the example's prior that differ from the sentinel -1.0. -/
def attMaskCount (g : Mat) : ℚ :=
  (g.map (fun row => (row.map (fun v => if v = -1 then (0 : ℚ) else 1)).sum)).sum

/-- Lines 194-198 for one example: `loss_att = numerator / mask count`.
(Lean's rational division returns 0 on a zero denominator; the float
semantics of that unguarded division is tracked by
`guidedAttentionLossChecked` below.) -/
def guidedAttentionLoss (a g : Mat) : ℚ :=
  attNumer a g / attMaskCount g

/-- The same computation with the IEEE-754 behaviour of the division at
line 198 made explicit: the source divides by the per-example mask count
with no guard, and over floats a zero denominator yields NaN (the numerator
is forced to 0 by the same all-zero mask, giving 0/0) — a non-finite result,
embedded as `none`. -/
def guidedAttentionLossChecked (a g : Mat) : Option ℚ :=
  if attMaskCount g = 0 then none
  else some (attNumer a g / attMaskCount g)

/-- The named per-example metric vectors returned as
`dict_metrics_losses` (lines 204-209). -/
structure MetricsDict where
  stop_token_loss : List ℝ
  mel_loss_before : List ℚ
  mel_loss_after : List ℚ
  guided_attention_loss : List ℚ

/-- Lines 142-211, `Tacotron2Trainer.compute_per_example_losses`: the two
mel losses, the stop-token loss against the constructed ground truth, the
guided attention loss, their sum `per_example_losses` (lines 200-202), and
the metrics dictionary. -/
noncomputable def compute_per_example_losses (cfg : Config) (batch : Batch)
    (outputs : ModelOutputs) : List ℝ × MetricsDict :=
  let mel_loss_before := List.zipWith mae3dLoss batch.mel_gts outputs.decoder_output
  let mel_loss_after := List.zipWith mae3dLoss batch.mel_gts outputs.post_mel_outputs
  let stop_gts := stopGts cfg batch.mel_lengths
  let stop_token_loss :=
    List.zipWith stopTokenLossPerExample stop_gts outputs.stop_token_predictions
  let loss_att :=
    List.zipWith guidedAttentionLoss outputs.alignment_historys batch.g_attentions
  let per_example_losses :=
    List.zipWith (· + ·)
      (List.zipWith (· + ·)
        (List.zipWith (· + ·) stop_token_loss (mel_loss_before.map (fun q : ℚ => (q : ℝ))))
        (mel_loss_after.map (fun q : ℚ => (q : ℝ))))
      (loss_att.map (fun q : ℚ => (q : ℝ)))
  (per_example_losses,
   { stop_token_loss := stop_token_loss
     mel_loss_before := mel_loss_before
     mel_loss_after := mel_loss_after
     guided_attention_loss := loss_att })

/-- The batch as the python dict it is: each required key may be absent. -/
structure BatchDict where
  mel_gts : Option (List Mat)
  mel_lengths : Option (List ℕ)
  g_attentions : Option (List Mat)

/-- The exception a python `dict` lookup raises on a missing key.  The
source defines no other error type: no `ConfigurationError`, no
`ShapeMismatchError` class exists anywhere in the file. -/
inductive PyError where
  | keyError (key : String)
deriving DecidableEq, Repr

/-- `compute_per_example_losses` with the dictionary lookups explicit, in
the order the source first evaluates them: `batch["mel_gts"]` (line 163),
`batch["mel_lengths"]` (lines 171/179), `batch["g_attentions"]`
(line 192).  A missing key raises `KeyError` at its first access. -/
noncomputable def compute_per_example_losses_dict (cfg : Config) (b : BatchDict)
    (outputs : ModelOutputs) : Except PyError (List ℝ × MetricsDict) := do
  let mel_gts ← match b.mel_gts with
    | some v => Except.ok v
    | none => Except.error (PyError.keyError "mel_gts")
  let mel_lengths ← match b.mel_lengths with
    | some v => Except.ok v
    | none => Except.error (PyError.keyError "mel_lengths")
  let g_attentions ← match b.g_attentions with
    | some v => Except.ok v
    | none => Except.error (PyError.keyError "g_attentions")
  Except.ok (compute_per_example_losses cfg
    { mel_gts := mel_gts, mel_lengths := mel_lengths, g_attentions := g_attentions }
    outputs)

/-- The behaviour of the external collaborators of
`generate_and_save_intermediate_result` during one call: whether the model
outputs are per-replica sharded (so `.values[0]` access succeeds), whether
the predictions directory already exists, and whether `os.makedirs` and
the `plt.savefig` calls succeed. -/
structure RenderWorld where
  sharded : Bool
  dir_exists : Bool
  makedirs_ok : Bool
  savefig_ok : Bool

/-- The exceptions the rendering path can raise
(`OSError` from `os.makedirs`, a plotting-backend / I-O error from
`matplotlib`). -/
inductive RenderError where
  | osError
  | pltError
deriving DecidableEq, Repr

/-- Control-flow skeleton of `generate_and_save_intermediate_result`
(lines 213-289) for a batch of `n` examples.  The `try/except Exception`
at lines 230-241 wraps ONLY the per-replica `.values[0]` extraction: when
the tensors are not sharded that access raises `AttributeError`, the
handler catches it and falls back to plain `.numpy()` access, so the
extraction never propagates an exception (both branches succeed here and
`sharded` only selects the branch).  Directory creation (lines 244-246,
run only when the directory is absent) and the plotting loop
(lines 248-289, `plt.savefig` per example) sit outside any exception
handler, so their failures propagate to the caller. -/
def generate_and_save_intermediate_result (n : ℕ) (w : RenderWorld) :
    Except RenderError Unit :=
  let _extracted := w.sharded
  if ¬ w.dir_exists ∧ ¬ w.makedirs_ok then Except.error RenderError.osError
  else if 0 < n ∧ ¬ w.savefig_ok then Except.error RenderError.pltError
  else Except.ok ()

/-! ## Helper lemmas -/

/-- The fold `foldr max 0` of a nonempty list of naturals is one of its
elements. -/
lemma foldr_max_mem : ∀ ls : List ℕ, ls ≠ [] → ls.foldr max 0 ∈ ls := by
  intro ls
  induction ls with
  | nil => intro h; exact absurd rfl h
  | cons x t ih =>
    intro _
    cases t with
    | nil => simp
    | cons y u =>
      rcases max_choice x ((y :: u).foldr max 0) with h1 | h1
      · rw [List.foldr_cons, h1]; exact List.mem_cons_self _ _
      · rw [List.foldr_cons, h1]
        exact List.mem_cons_of_mem _ (ih (by simp))

/-- Every element of a list of naturals is bounded by `foldr max 0`. -/
lemma le_foldr_max : ∀ ls : List ℕ, ∀ x ∈ ls, x ≤ ls.foldr max 0 := by
  intro ls
  induction ls with
  | nil => simp
  | cons a t ih =>
    intro x hx
    rcases List.mem_cons.mp hx with rfl | hx
    · exact le_max_left _ _
    · exact le_trans (ih x hx) (le_max_right _ _)

/-! ## Claims -/

/-- C5: the time dimension T used for the stop-token ground truth is the
configured `max_mel_length` when `use_fixed_shapes` is true, and the
maximum entry of the batch's `mel_lengths` (an entry of the list that
bounds all entries) when `use_fixed_shapes` is false. -/
theorem stop_gts_time_dimension :
    (∀ (cfg : Config) (ls : List ℕ), cfg.use_fixed_shapes = true →
      stopGtsT cfg ls = cfg.max_mel_length)
    ∧ (∀ (cfg : Config) (ls : List ℕ), cfg.use_fixed_shapes = false → ls ≠ [] →
      stopGtsT cfg ls ∈ ls ∧ ∀ x ∈ ls, x ≤ stopGtsT cfg ls) := by
  constructor
  · intro cfg ls h
    simp [stopGtsT, max_mel_length, h]
  · intro cfg ls h hne
    have hT : stopGtsT cfg ls = ls.foldr max 0 := by
      simp [stopGtsT, max_mel_length, h]
    rw [hT]
    exact ⟨foldr_max_mem ls hne, le_foldr_max ls⟩

/-- Witness for C5 at `mel_lengths = [3, 5]`: with fixed shapes T is the
configured 7; with dynamic shapes T is a member of the list bounding all
entries. -/
theorem stop_gts_time_dimension_witness :
    stopGtsT ⟨true, 7⟩ [3, 5] = 7 ∧
    (stopGtsT ⟨false, 7⟩ [3, 5] ∈ ([3, 5] : List ℕ) ∧
      ∀ x ∈ ([3, 5] : List ℕ), x ≤ stopGtsT ⟨false, 7⟩ [3, 5]) :=
  ⟨stop_gts_time_dimension.1 ⟨true, 7⟩ [3, 5] rfl,
   stop_gts_time_dimension.2 ⟨false, 7⟩ [3, 5] rfl (by simp)⟩

/-- C2: the stop-token ground truth is a [B, T] binary matrix whose entry
at (i, t) is 1.0 exactly when `t ≥ mel_lengths[i]` and 0.0 otherwise; in
particular for `mel_lengths = [3, 5]` (dynamic T = 5) row 0 is
[0,0,0,1,1] and row 1 is [0,0,0,0,0]. -/
theorem stop_token_ground_truth :
    (∀ (cfg : Config) (ls : List ℕ) (i t : ℕ), i < ls.length →
      t < stopGtsT cfg ls →
      ((stopGts cfg ls).getD i []).getD t 0 =
        if ls.getD i 0 ≤ t then (1 : ℚ) else 0)
    ∧ stopGts ⟨false, 0⟩ [3, 5] = [[0, 0, 0, 1, 1], [0, 0, 0, 0, 0]] := by
  constructor
  · intro cfg ls i t hi ht
    simp only [stopGts, List.getD_eq_getElem?_getD, List.getElem?_map,
      List.getElem?_eq_getElem hi]
    simp only [Option.map_some, Option.getD_some]
    have ht2 : t < (List.range (stopGtsT cfg ls)).length := by
      simpa using ht
    simp [List.getElem?_eq_getElem ht2, List.getElem?_map,
      List.getD_eq_getElem?_getD, List.getElem?_eq_getElem hi]
  · decide

/-- Witness for C2: the general entry formula instantiated at
`mel_lengths = [3, 5]`, example 0, position 3 (a stop position), together
with the concrete two-row matrix of the claim. -/
theorem stop_token_ground_truth_witness :
    ((stopGts ⟨false, 0⟩ [3, 5]).getD 0 []).getD 3 0 =
      (if ([3, 5] : List ℕ).getD 0 0 ≤ 3 then (1 : ℚ) else 0) ∧
    stopGts ⟨false, 0⟩ [3, 5] = [[0, 0, 0, 1, 1], [0, 0, 0, 0, 0]] :=
  ⟨stop_token_ground_truth.1 ⟨false, 0⟩ [3, 5] 0 3 (by decide) (by decide),
   stop_token_ground_truth.2⟩

/-- `getD` distributes over an elementwise `zipWith (+)` at in-range
indices. -/
lemma getD_zipWith_add (l1 l2 : List ℝ) (i : ℕ) (h1 : i < l1.length)
    (h2 : i < l2.length) :
    (List.zipWith (· + ·) l1 l2).getD i 0 = l1.getD i 0 + l2.getD i 0 := by
  have hz : i < (List.zipWith (· + ·) l1 l2).length := by
    rw [List.length_zipWith]; exact lt_min h1 h2
  rw [List.getD_eq_getElem?_getD, List.getElem?_eq_getElem hz,
    Option.getD_some, List.getElem_zipWith,
    List.getD_eq_getElem?_getD, List.getElem?_eq_getElem h1, Option.getD_some,
    List.getD_eq_getElem?_getD, List.getElem?_eq_getElem h2, Option.getD_some]

/-- `getD` commutes with the pointwise cast `ℚ → ℝ` at in-range indices. -/
lemma getD_map_ratCast (l : List ℚ) (i : ℕ) (h : i < l.length) :
    (l.map (fun q : ℚ => (q : ℝ))).getD i 0 = (l.getD i 0 : ℝ) := by
  have hm : i < (l.map (fun q : ℚ => (q : ℝ))).length := by simpa using h
  rw [List.getD_eq_getElem?_getD, List.getElem?_eq_getElem hm,
    Option.getD_some, List.getElem_map,
    List.getD_eq_getElem?_getD, List.getElem?_eq_getElem h, Option.getD_some]

/-- C1: for a batch of B examples (all tensors with leading dimension B),
`per_example_losses` has length B and is, elementwise, the sum
`stop_token_loss + mel_loss_before + mel_loss_after + guided_attention_loss`
of the four returned metric vectors. -/
theorem per_example_losses_sum (cfg : Config) (batch : Batch)
    (o : ModelOutputs)
    (h1 : batch.mel_gts.length = batch.mel_lengths.length)
    (h2 : o.decoder_output.length = batch.mel_lengths.length)
    (h3 : o.post_mel_outputs.length = batch.mel_lengths.length)
    (h4 : o.stop_token_predictions.length = batch.mel_lengths.length)
    (h5 : o.alignment_historys.length = batch.mel_lengths.length)
    (h6 : batch.g_attentions.length = batch.mel_lengths.length) :
    (compute_per_example_losses cfg batch o).1.length =
      batch.mel_lengths.length ∧
    ∀ i, i < batch.mel_lengths.length →
      (compute_per_example_losses cfg batch o).1.getD i 0 =
        (compute_per_example_losses cfg batch o).2.stop_token_loss.getD i 0
        + ((compute_per_example_losses cfg batch o).2.mel_loss_before.getD i 0 : ℝ)
        + ((compute_per_example_losses cfg batch o).2.mel_loss_after.getD i 0 : ℝ)
        + ((compute_per_example_losses cfg batch o).2.guided_attention_loss.getD i 0 : ℝ) := by
  have lgts : (stopGts cfg batch.mel_lengths).length =
      batch.mel_lengths.length := by simp [stopGts]
  have ls : (List.zipWith stopTokenLossPerExample
      (stopGts cfg batch.mel_lengths) o.stop_token_predictions).length =
      batch.mel_lengths.length := by
    rw [List.length_zipWith, lgts, h4, min_self]
  have lb : (List.zipWith mae3dLoss batch.mel_gts o.decoder_output).length =
      batch.mel_lengths.length := by
    rw [List.length_zipWith, h1, h2, min_self]
  have la : (List.zipWith mae3dLoss batch.mel_gts o.post_mel_outputs).length =
      batch.mel_lengths.length := by
    rw [List.length_zipWith, h1, h3, min_self]
  have lg : (List.zipWith guidedAttentionLoss o.alignment_historys
      batch.g_attentions).length = batch.mel_lengths.length := by
    rw [List.length_zipWith, h5, h6, min_self]
  refine ⟨?_, ?_⟩
  · simp only [compute_per_example_losses, List.length_zipWith, List.length_map,
      ls, lb, la, lg, min_self]
  · intro i hi
    have hs : i < (List.zipWith stopTokenLossPerExample
        (stopGts cfg batch.mel_lengths) o.stop_token_predictions).length := by
      rw [ls]; exact hi
    have hbm : i < ((List.zipWith mae3dLoss batch.mel_gts
        o.decoder_output).map (fun q : ℚ => (q : ℝ))).length := by
      rw [List.length_map, lb]; exact hi
    have ham : i < ((List.zipWith mae3dLoss batch.mel_gts
        o.post_mel_outputs).map (fun q : ℚ => (q : ℝ))).length := by
      rw [List.length_map, la]; exact hi
    have hgm : i < ((List.zipWith guidedAttentionLoss o.alignment_historys
        batch.g_attentions).map (fun q : ℚ => (q : ℝ))).length := by
      rw [List.length_map, lg]; exact hi
    have h12 : i < (List.zipWith (· + ·)
        (List.zipWith stopTokenLossPerExample (stopGts cfg batch.mel_lengths)
          o.stop_token_predictions)
        ((List.zipWith mae3dLoss batch.mel_gts
          o.decoder_output).map (fun q : ℚ => (q : ℝ)))).length := by
      rw [List.length_zipWith]; exact lt_min hs hbm
    have h123 : i < (List.zipWith (· + ·)
        (List.zipWith (· + ·)
          (List.zipWith stopTokenLossPerExample (stopGts cfg batch.mel_lengths)
            o.stop_token_predictions)
          ((List.zipWith mae3dLoss batch.mel_gts
            o.decoder_output).map (fun q : ℚ => (q : ℝ))))
        ((List.zipWith mae3dLoss batch.mel_gts
          o.post_mel_outputs).map (fun q : ℚ => (q : ℝ)))).length := by
      rw [List.length_zipWith]; exact lt_min h12 ham
    simp only [compute_per_example_losses]
    rw [getD_zipWith_add _ _ _ h123 hgm, getD_zipWith_add _ _ _ h12 ham,
      getD_zipWith_add _ _ _ hs hbm,
      getD_map_ratCast _ _ (by rw [lb]; exact hi),
      getD_map_ratCast _ _ (by rw [la]; exact hi),
      getD_map_ratCast _ _ (by rw [lg]; exact hi)]

/-- Witness for C1: a one-example batch; the returned vector has length 1
and its entry is the sum of the four metric entries. -/
theorem per_example_losses_sum_witness :
    (compute_per_example_losses ⟨false, 0⟩ ⟨[[[0]]], [1], [[[2]]]⟩
      ⟨[[[1]]], [[[0]]], [[0]], [[[1]]]⟩).1.length = ([1] : List ℕ).length ∧
    (compute_per_example_losses ⟨false, 0⟩ ⟨[[[0]]], [1], [[[2]]]⟩
      ⟨[[[1]]], [[[0]]], [[0]], [[[1]]]⟩).1.getD 0 0 =
      (compute_per_example_losses ⟨false, 0⟩ ⟨[[[0]]], [1], [[[2]]]⟩
        ⟨[[[1]]], [[[0]]], [[0]], [[[1]]]⟩).2.stop_token_loss.getD 0 0
      + ((compute_per_example_losses ⟨false, 0⟩ ⟨[[[0]]], [1], [[[2]]]⟩
        ⟨[[[1]]], [[[0]]], [[0]], [[[1]]]⟩).2.mel_loss_before.getD 0 0 : ℝ)
      + ((compute_per_example_losses ⟨false, 0⟩ ⟨[[[0]]], [1], [[[2]]]⟩
        ⟨[[[1]]], [[[0]]], [[0]], [[[1]]]⟩).2.mel_loss_after.getD 0 0 : ℝ)
      + ((compute_per_example_losses ⟨false, 0⟩ ⟨[[[0]]], [1], [[[2]]]⟩
        ⟨[[[1]]], [[[0]]], [[0]], [[[1]]]⟩).2.guided_attention_loss.getD 0 0 : ℝ) :=
  ⟨(per_example_losses_sum ⟨false, 0⟩ ⟨[[[0]]], [1], [[[2]]]⟩
      ⟨[[[1]]], [[[0]]], [[0]], [[[1]]]⟩ rfl rfl rfl rfl rfl rfl).1,
   (per_example_losses_sum ⟨false, 0⟩ ⟨[[[0]]], [1], [[[2]]]⟩
      ⟨[[[1]]], [[[0]]], [[0]], [[[1]]]⟩ rfl rfl rfl rfl rfl rfl).2 0
      (by decide)⟩

/-- The claim's reading of lines 191-198: the positions of one example
where the attention prior differs from the sentinel -1.0, paired as
(alignment entry, prior entry). -/
def attValidPairs (a g : Mat) : List (ℚ × ℚ) :=
  ((List.zipWith List.zip a g).flatten).filter (fun p => p.2 ≠ -1)

/-- One row of the masked sum equals the sum of `|alignment * prior|`
over the row's valid positions. -/
lemma guidedAttRowTerms_sum : ∀ ra rg : Vec,
    (guidedAttRowTerms ra rg).sum =
      (((ra.zip rg).filter (fun p => p.2 ≠ -1)).map
        (fun p => |p.1 * p.2|)).sum := by
  intro ra
  induction ra with
  | nil => intro rg; simp [guidedAttRowTerms]
  | cons x xs ih =>
    intro rg
    cases rg with
    | nil => simp [guidedAttRowTerms]
    | cons y ys =>
      rw [show guidedAttRowTerms (x :: xs) (y :: ys) =
          (|x * y| * (if y = -1 then 0 else 1)) :: guidedAttRowTerms xs ys
        from rfl, List.sum_cons, ih ys, List.zip_cons_cons, List.filter_cons]
      by_cases hy : y = -1
      · simp [hy]
      · simp [hy]

/-- One row of the mask sum counts the row's valid positions. -/
lemma row_mask_count : ∀ ra rg : Vec, ra.length = rg.length →
    (rg.map (fun v => if v = -1 then (0 : ℚ) else 1)).sum =
      (((ra.zip rg).filter (fun p => p.2 ≠ -1)).length : ℚ) := by
  intro ra
  induction ra with
  | nil =>
    intro rg h
    cases rg with
    | nil => simp
    | cons y ys => simp at h
  | cons x xs ih =>
    intro rg h
    cases rg with
    | nil => simp at h
    | cons y ys =>
      have h' : xs.length = ys.length := by simpa using h
      by_cases hy : y = -1
      · subst hy
        simp [List.zip_cons_cons, List.filter_cons, ih ys h']
      · simp only [List.map_cons, List.sum_cons, List.zip_cons_cons,
          List.filter_cons, if_neg hy]
        rw [ih ys h']
        simp [hy, add_comm]

/-- The numerator of the guided-attention loss is the sum of
`|alignment * prior|` over the example's valid positions. -/
lemma attNumer_eq_validPairs : ∀ a g : Mat,
    attNumer a g = ((attValidPairs a g).map (fun p => |p.1 * p.2|)).sum := by
  intro a
  induction a with
  | nil => intro g; simp [attNumer, attValidPairs]
  | cons ra a ih =>
    intro g
    cases g with
    | nil => simp [attNumer, attValidPairs]
    | cons rg g =>
      simp only [attNumer, attValidPairs, List.zipWith_cons_cons,
        List.map_cons, List.sum_cons, List.flatten_cons, List.filter_append,
        List.map_append, List.sum_append]
      rw [guidedAttRowTerms_sum ra rg]
      have := ih g
      simp only [attNumer, attValidPairs] at this
      rw [this]

/-- The denominator of the guided-attention loss counts the example's
valid positions (matching shapes). -/
lemma attMaskCount_eq_validPairs : ∀ a g : Mat, a.length = g.length →
    (∀ p ∈ List.zip a g, p.1.length = p.2.length) →
    attMaskCount g = ((attValidPairs a g).length : ℚ) := by
  intro a
  induction a with
  | nil =>
    intro g h _
    cases g with
    | nil => simp [attMaskCount, attValidPairs]
    | cons rg g => simp at h
  | cons ra a ih =>
    intro g h hrow
    cases g with
    | nil => simp at h
    | cons rg g =>
      have h' : a.length = g.length := by simpa using h
      have hhead : ra.length = rg.length :=
        hrow (ra, rg) (by simp [List.zip_cons_cons])
      have htail : ∀ p ∈ List.zip a g, p.1.length = p.2.length := by
        intro p hp
        exact hrow p (by simp [List.zip_cons_cons, hp])
      simp only [attMaskCount, attValidPairs, List.zipWith_cons_cons,
        List.flatten_cons, List.map_cons, List.sum_cons, List.filter_append,
        List.length_append]
      rw [row_mask_count ra rg hhead]
      have := ih g h' htail
      simp only [attMaskCount, attValidPairs] at this
      rw [this]
      push_cast
      ring

/-- C3: for matching shapes, the guided-attention loss of an example is
the sum over its valid positions (prior entry different from -1.0) of
`|alignment * prior|`, divided by the number of such valid positions. -/
theorem guided_attention_loss_form (a g : Mat) (hlen : a.length = g.length)
    (hrow : ∀ p ∈ List.zip a g, p.1.length = p.2.length) :
    guidedAttentionLoss a g =
      ((attValidPairs a g).map (fun p => |p.1 * p.2|)).sum /
        ((attValidPairs a g).length : ℚ) := by
  rw [guidedAttentionLoss, attNumer_eq_validPairs,
    attMaskCount_eq_validPairs a g hlen hrow]

/-- Witness for C3 at a concrete 1-by-2 example with one masked-out
position. -/
theorem guided_attention_loss_form_witness :
    guidedAttentionLoss [[1, 2]] [[-1, 3]] =
      ((attValidPairs [[1, 2]] [[-1, 3]]).map (fun p => |p.1 * p.2|)).sum /
        ((attValidPairs [[1, 2]] [[-1, 3]]).length : ℚ) :=
  guided_attention_loss_form [[1, 2]] [[-1, 3]] (by decide) (by decide)

/-- C4 counterexample: with a guided-attention prior entirely equal to
-1.0 the mask has zero valid positions, and the unguarded division at
line 198 produces 0/0 — over IEEE floats NaN, not a defined finite value
(`none` in the checked embedding). -/
theorem guided_attention_all_masked_nan :
    guidedAttentionLossChecked [[1, 2], [3, 4]] [[-1, -1], [-1, -1]] =
      none := by
  norm_num [guidedAttentionLossChecked, attMaskCount]

/-- C4 amended: the division by the valid-position count is NOT guarded;
when every entry of an example's prior equals -1.0 the count is zero and
the result is the non-finite 0/0 (NaN), while an example with at least
one valid position gets the defined finite quotient. -/
theorem guided_attention_zero_mask (a g : Mat) :
    ((∀ row ∈ g, ∀ v ∈ row, v = -1) →
      guidedAttentionLossChecked a g = none)
    ∧ (attMaskCount g ≠ 0 →
      guidedAttentionLossChecked a g = some (guidedAttentionLoss a g)) := by
  constructor
  · intro hall
    have hz : attMaskCount g = 0 := by
      apply List.sum_eq_zero
      intro x hx
      obtain ⟨row, hrowmem, rfl⟩ := List.mem_map.mp hx
      apply List.sum_eq_zero
      intro y hy
      obtain ⟨v, hv, rfl⟩ := List.mem_map.mp hy
      rw [if_pos (hall row hrowmem v hv)]
    simp [guidedAttentionLossChecked, hz]
  · intro hnz
    simp [guidedAttentionLossChecked, hnz, guidedAttentionLoss]

/-- Witness for the amended C4: an all-masked example yields `none` (NaN)
and an unmasked example yields the finite quotient. -/
theorem guided_attention_zero_mask_witness :
    guidedAttentionLossChecked [[5]] [[-1]] = none ∧
    guidedAttentionLossChecked [[5]] [[2]] =
      some (guidedAttentionLoss [[5]] [[2]]) :=
  ⟨(guided_attention_zero_mask [[5]] [[-1]]).1 (by decide),
   (guided_attention_zero_mask [[5]] [[2]]).2 (by norm_num [attMaskCount])⟩

/-- Elements of a `zipWith` inherit a property satisfied by the function
on members of the input lists. -/
lemma forall_mem_zipWith {α β γ : Type} (P : γ → Prop) (f : α → β → γ) :
    ∀ (l1 : List α) (l2 : List β), (∀ a ∈ l1, ∀ b ∈ l2, P (f a b)) →
      ∀ x ∈ List.zipWith f l1 l2, P x := by
  intro l1
  induction l1 with
  | nil => intro l2 _ x hx; simp at hx
  | cons a t ih =>
    intro l2 h x hx
    cases l2 with
    | nil => simp at hx
    | cons b s =>
      rcases List.mem_cons.mp hx with rfl | hx
      · exact h a (by simp) b (by simp)
      · exact ih s (fun c hc d hd => h c (by simp [hc]) d (by simp [hd])) x hx

/-- The mean of a list of non-negative rationals vanishes exactly when
every element vanishes. -/
lemma mean_eq_zero_iff (l : List ℚ) (h : ∀ x ∈ l, 0 ≤ x) :
    l.sum / (l.length : ℚ) = 0 ↔ ∀ x ∈ l, x = 0 := by
  cases l with
  | nil => simp
  | cons a t =>
    have hlen : (((a :: t).length : ℕ) : ℚ) ≠ 0 := by
      simp only [List.length_cons, Nat.cast_add, Nat.cast_one]
      positivity
    rw [div_eq_zero_iff]
    constructor
    · rintro (hs | habs)
      · intro x hx
        by_contra hne
        have hpos : 0 < x := lt_of_le_of_ne (h x hx) (Ne.symm hne)
        have hle : x ≤ (a :: t).sum := List.single_le_sum h x hx
        linarith
      · exact absurd habs hlen
    · intro hz
      exact Or.inl (List.sum_eq_zero hz)

/-- Absolute differences of two lists all vanish exactly when the lists
are equal (matching lengths). -/
lemma zipWith_absdiff_zero : ∀ l1 l2 : Vec, l1.length = l2.length →
    ((∀ x ∈ List.zipWith (fun a b => |a - b|) l1 l2, x = 0) ↔ l1 = l2) := by
  intro l1
  induction l1 with
  | nil =>
    intro l2 h
    cases l2 with
    | nil => simp
    | cons b s => simp at h
  | cons a t ih =>
    intro l2 h
    cases l2 with
    | nil => simp at h
    | cons b s =>
      have h' : t.length = s.length := by simpa using h
      simp only [List.zipWith_cons_cons, List.mem_cons, List.cons.injEq]
      constructor
      · intro hz
        have ha : |a - b| = 0 := hz _ (Or.inl rfl)
        refine ⟨by linarith [abs_eq_zero.mp ha, sub_eq_zero.mp (abs_eq_zero.mp ha)], ?_⟩
        exact (ih s h').mp (fun x hx => hz x (Or.inr hx))
      · rintro ⟨rfl, rfl⟩
        intro x hx
        rcases hx with rfl | hx
        · simp
        · exact ((ih t rfl).mpr rfl) x hx

/-- Each per-row L1 term is non-negative. -/
lemma maeRow_nonneg (gt pred : Vec) : 0 ≤ maeRow gt pred := by
  unfold maeRow
  apply div_nonneg
  · exact List.sum_nonneg (forall_mem_zipWith _ _ gt pred
      (fun a _ b _ => abs_nonneg (a - b)))
  · exact Nat.cast_nonneg _

/-- The per-example L1 mel loss is non-negative. -/
lemma mae3dLoss_nonneg (gt pred : Mat) : 0 ≤ mae3dLoss gt pred := by
  unfold mae3dLoss
  apply div_nonneg
  · exact List.sum_nonneg (forall_mem_zipWith _ _ gt pred
      (fun a _ b _ => maeRow_nonneg a b))
  · exact Nat.cast_nonneg _

/-- A row's L1 loss vanishes exactly when the row equals its prediction
(matching lengths). -/
lemma maeRow_eq_zero_iff (gt pred : Vec) (h : gt.length = pred.length) :
    maeRow gt pred = 0 ↔ gt = pred := by
  unfold maeRow
  rw [mean_eq_zero_iff _ (forall_mem_zipWith _ _ gt pred
    (fun a _ b _ => abs_nonneg (a - b)))]
  exact zipWith_absdiff_zero gt pred h

/-- All per-row L1 losses vanish exactly when the two matrices are equal
(matching shapes). -/
lemma rows_zero_iff : ∀ gt pred : Mat, gt.length = pred.length →
    (∀ p ∈ List.zip gt pred, p.1.length = p.2.length) →
    ((∀ x ∈ List.zipWith maeRow gt pred, x = 0) ↔ gt = pred) := by
  intro gt
  induction gt with
  | nil =>
    intro pred h _
    cases pred with
    | nil => simp
    | cons s ps => simp at h
  | cons r gts ih =>
    intro pred h hrow
    cases pred with
    | nil => simp at h
    | cons s ps =>
      have h' : gts.length = ps.length := by simpa using h
      have hhead : r.length = s.length :=
        hrow (r, s) (by simp [List.zip_cons_cons])
      have htail : ∀ p ∈ List.zip gts ps, p.1.length = p.2.length := by
        intro p hp
        exact hrow p (by simp [List.zip_cons_cons, hp])
      simp only [List.zipWith_cons_cons, List.mem_cons, List.cons.injEq]
      constructor
      · intro hz
        refine ⟨(maeRow_eq_zero_iff r s hhead).mp (hz _ (Or.inl rfl)), ?_⟩
        exact (ih ps h' htail).mp (fun x hx => hz x (Or.inr hx))
      · rintro ⟨rfl, rfl⟩
        intro x hx
        rcases hx with rfl | hx
        · exact (maeRow_eq_zero_iff r r rfl).mpr rfl
        · rw [List.zipWith_same] at hx
          obtain ⟨row, _, rfl⟩ := List.mem_map.mp hx
          exact (maeRow_eq_zero_iff row row rfl).mpr rfl

/-- The per-example L1 mel loss vanishes exactly when prediction equals
ground truth (matching shapes). -/
lemma mae3dLoss_eq_zero_iff (gt pred : Mat) (hlen : gt.length = pred.length)
    (hrow : ∀ p ∈ List.zip gt pred, p.1.length = p.2.length) :
    mae3dLoss gt pred = 0 ↔ gt = pred := by
  unfold mae3dLoss
  rw [mean_eq_zero_iff _ (forall_mem_zipWith _ _ gt pred
    (fun a _ b _ => maeRow_nonneg a b))]
  exact rows_zero_iff gt pred hlen hrow

/-- C8: the per-example L1 mel loss (used for both `mel_loss_before` and
`mel_loss_after`) is exactly zero when the predicted mel tensor equals
the ground truth, and strictly positive when they differ anywhere
(matching shapes); and the two mel metrics are exactly this loss applied
to the pre-postnet and post-postnet outputs. -/
theorem mel_loss_zero_iff :
    (∀ gt pred : Mat, gt.length = pred.length →
      (∀ p ∈ List.zip gt pred, p.1.length = p.2.length) →
      (gt = pred → mae3dLoss gt pred = 0) ∧
      (gt ≠ pred → 0 < mae3dLoss gt pred))
    ∧ (∀ (cfg : Config) (b : Batch) (o : ModelOutputs),
      (compute_per_example_losses cfg b o).2.mel_loss_before =
        List.zipWith mae3dLoss b.mel_gts o.decoder_output ∧
      (compute_per_example_losses cfg b o).2.mel_loss_after =
        List.zipWith mae3dLoss b.mel_gts o.post_mel_outputs) := by
  constructor
  · intro gt pred hlen hrow
    constructor
    · intro he
      exact (mae3dLoss_eq_zero_iff gt pred hlen hrow).mpr he
    · intro hne
      rcases (mae3dLoss_nonneg gt pred).lt_or_eq with hlt | heq
      · exact hlt
      · exact absurd ((mae3dLoss_eq_zero_iff gt pred hlen hrow).mp heq.symm) hne
  · intro cfg b o
    exact ⟨rfl, rfl⟩

/-- Witness for C8: equal 1-by-1 tensors give loss 0; differing ones give
a strictly positive loss. -/
theorem mel_loss_zero_iff_witness :
    mae3dLoss [[1]] [[1]] = 0 ∧ 0 < mae3dLoss [[1]] [[2]] :=
  ⟨(mel_loss_zero_iff.1 [[1]] [[1]] rfl (by decide)).1 rfl,
   (mel_loss_zero_iff.1 [[1]] [[2]] rfl (by decide)).2 (by decide)⟩

/-- The numerically stable from-logits form of the binary cross-entropy
equals the textbook form with the sigmoid applied inside the loss. -/
lemma bce_stable_eq (y x : ℝ) :
    max x 0 - x * y + Real.log (1 + Real.exp (-|x|)) =
      -(y * Real.log (sigmoid x) + (1 - y) * Real.log (1 - sigmoid x)) := by
  have hexp : (0 : ℝ) < Real.exp (-x) := Real.exp_pos _
  have hden : (0 : ℝ) < 1 + Real.exp (-x) := by linarith
  have hlogsig : Real.log (sigmoid x) = -Real.log (1 + Real.exp (-x)) := by
    rw [sigmoid, one_div, Real.log_inv]
  have h1sub : 1 - sigmoid x = Real.exp (-x) / (1 + Real.exp (-x)) := by
    rw [sigmoid]
    field_simp
  have hlog1sub : Real.log (1 - sigmoid x) =
      -x - Real.log (1 + Real.exp (-x)) := by
    rw [h1sub, Real.log_div (ne_of_gt hexp) (ne_of_gt hden), Real.log_exp]
  have key : max x 0 + Real.log (1 + Real.exp (-|x|)) =
      x + Real.log (1 + Real.exp (-x)) := by
    rcases le_or_lt 0 x with hx | hx
    · rw [max_eq_left hx, abs_of_nonneg hx]
    · rw [max_eq_right (le_of_lt hx), abs_of_neg hx, neg_neg]
      have hsplit : (1 : ℝ) + Real.exp x = Real.exp x * (1 + Real.exp (-x)) := by
        rw [mul_add, mul_one, ← Real.exp_add]
        simp [add_comm]
      rw [hsplit, Real.log_mul (Real.exp_ne_zero x) (ne_of_gt hden),
        Real.log_exp]
      ring
  rw [hlogsig, hlog1sub]
  linear_combination key

/-- C7: the per-element stop-token loss is the binary cross-entropy on
the RAW logit — the sigmoid is applied inside the loss, never
pre-applied — and the per-example `stop_token_loss` is its mean over the
time axis, evaluated against the constructed stop-token ground truth. -/
theorem stop_token_loss_from_logits :
    (∀ y x : ℚ, bceElem y x =
      -((y : ℝ) * Real.log (sigmoid (x : ℝ)) +
        (1 - (y : ℝ)) * Real.log (1 - sigmoid (x : ℝ))))
    ∧ (∀ labels logits : Vec, stopTokenLossPerExample labels logits =
      (List.zipWith (fun y x : ℚ =>
        -((y : ℝ) * Real.log (sigmoid (x : ℝ)) +
          (1 - (y : ℝ)) * Real.log (1 - sigmoid (x : ℝ)))) labels logits).sum /
      ((List.zipWith bceElem labels logits).length : ℝ))
    ∧ (∀ (cfg : Config) (b : Batch) (o : ModelOutputs),
      (compute_per_example_losses cfg b o).2.stop_token_loss =
        List.zipWith stopTokenLossPerExample (stopGts cfg b.mel_lengths)
          o.stop_token_predictions) := by
  have h1 : ∀ y x : ℚ, bceElem y x =
      -((y : ℝ) * Real.log (sigmoid (x : ℝ)) +
        (1 - (y : ℝ)) * Real.log (1 - sigmoid (x : ℝ))) := by
    intro y x
    exact bce_stable_eq (y : ℝ) (x : ℝ)
  refine ⟨h1, ?_, fun cfg b o => rfl⟩
  intro labels logits
  have hfun : bceElem = fun y x : ℚ =>
      -((y : ℝ) * Real.log (sigmoid (x : ℝ)) +
        (1 - (y : ℝ)) * Real.log (1 - sigmoid (x : ℝ))) :=
    funext fun y => funext fun x => h1 y x
  show (List.zipWith bceElem labels logits).sum /
      ((List.zipWith bceElem labels logits).length : ℝ) = _
  rw [hfun]

/-- Each element of the from-logits cross-entropy is non-negative for
labels in [0, 1]. -/
lemma bceElem_nonneg (y x : ℚ) (h0 : (0 : ℚ) ≤ y) (h1 : y ≤ 1) :
    0 ≤ bceElem y x := by
  unfold bceElem
  have hlog : 0 < Real.log (1 + Real.exp (-|(x : ℝ)|)) := by
    apply Real.log_pos
    linarith [Real.exp_pos (-|(x : ℝ)|)]
  have hy0 : (0 : ℝ) ≤ (y : ℝ) := by exact_mod_cast h0
  have hy1 : (y : ℝ) ≤ 1 := by exact_mod_cast h1
  have hterm : 0 ≤ max (x : ℝ) 0 - (x : ℝ) * (y : ℝ) := by
    rcases le_or_lt 0 (x : ℝ) with hx | hx
    · rw [max_eq_left hx]
      nlinarith
    · rw [max_eq_right (le_of_lt hx)]
      nlinarith
  linarith

/-- The per-example stop-token loss is non-negative for labels in [0, 1]. -/
lemma stopTokenLossPerExample_nonneg (labels logits : Vec)
    (h : ∀ y ∈ labels, 0 ≤ y ∧ y ≤ 1) :
    0 ≤ stopTokenLossPerExample labels logits := by
  unfold stopTokenLossPerExample
  apply div_nonneg
  · apply List.sum_nonneg
    apply forall_mem_zipWith (fun z : ℝ => 0 ≤ z) bceElem labels logits
    intro a ha b _
    exact bceElem_nonneg a b (h a ha).1 (h a ha).2
  · exact Nat.cast_nonneg _

/-- Every entry of the stop-token ground truth lies in [0, 1]. -/
lemma stopGts_mem_bounds (cfg : Config) (ls : List ℕ) :
    ∀ row ∈ stopGts cfg ls, ∀ y ∈ row, 0 ≤ y ∧ y ≤ 1 := by
  intro row hrow y hy
  obtain ⟨len, _, rfl⟩ := List.mem_map.mp hrow
  obtain ⟨t, _, rfl⟩ := List.mem_map.mp hy
  by_cases h : len ≤ t
  · simp [h]
  · simp [h]

/-- Every masked absolute product is non-negative. -/
lemma guidedAttRowTerms_nonneg (a g : Vec) :
    ∀ x ∈ guidedAttRowTerms a g, 0 ≤ x := by
  apply forall_mem_zipWith
  intro p _ q _
  by_cases hq : q = -1
  · simp [hq]
  · simp [hq]

/-- The guided-attention numerator is non-negative. -/
lemma attNumer_nonneg (a g : Mat) : 0 ≤ attNumer a g := by
  apply List.sum_nonneg
  intro s hs
  obtain ⟨row, hrowm, rfl⟩ := List.mem_map.mp hs
  have hall := forall_mem_zipWith (fun r : List ℚ => ∀ x ∈ r, 0 ≤ x)
    guidedAttRowTerms a g (fun ra _ rg _ => guidedAttRowTerms_nonneg ra rg)
  exact List.sum_nonneg (hall row hrowm)

/-- The per-example valid-position count is non-negative. -/
lemma attMaskCount_nonneg (g : Mat) : 0 ≤ attMaskCount g := by
  apply List.sum_nonneg
  intro s hs
  obtain ⟨row, _, rfl⟩ := List.mem_map.mp hs
  apply List.sum_nonneg
  intro v hv
  obtain ⟨w, _, rfl⟩ := List.mem_map.mp hv
  by_cases hw : w = -1 <;> simp [hw]

/-- The per-example guided-attention loss is non-negative. -/
lemma guidedAttentionLoss_nonneg (a g : Mat) : 0 ≤ guidedAttentionLoss a g :=
  div_nonneg (attNumer_nonneg a g) (attMaskCount_nonneg g)

/-- `getD` with default 0 of a list of non-negative values is
non-negative. -/
lemma getD_nonneg {α : Type} [Zero α] [Preorder α] (l : List α)
    (h : ∀ x ∈ l, 0 ≤ x) (i : ℕ) : 0 ≤ l.getD i 0 := by
  rcases lt_or_ge i l.length with hi | hi
  · rw [List.getD_eq_getElem?_getD, List.getElem?_eq_getElem hi,
      Option.getD_some]
    exact h _ (List.getElem_mem hi)
  · rw [List.getD_eq_getElem?_getD, List.getElem?_eq_none hi,
      Option.getD_none]

/-- Elementwise sums of non-negative lists are non-negative. -/
lemma zipWith_add_nonneg (l1 l2 : List ℝ) (h1 : ∀ x ∈ l1, 0 ≤ x)
    (h2 : ∀ x ∈ l2, 0 ≤ x) :
    ∀ x ∈ List.zipWith (· + ·) l1 l2, 0 ≤ x :=
  forall_mem_zipWith _ _ l1 l2 (fun a ha b hb => add_nonneg (h1 a ha) (h2 b hb))

/-- The pointwise cast `ℚ → ℝ` preserves non-negativity of the list. -/
lemma map_ratCast_nonneg (l : List ℚ) (h : ∀ x ∈ l, 0 ≤ x) :
    ∀ x ∈ l.map (fun q : ℚ => (q : ℝ)), 0 ≤ x := by
  intro x hx
  obtain ⟨q, hq, rfl⟩ := List.mem_map.mp hx
  exact_mod_cast h q hq

/-- C10: for batches in which every example's attention prior has at
least one valid (non -1.0) position, every entry of each of the four
metric vectors is non-negative, and hence so is every entry of
`per_example_losses`.  (The valid-position hypothesis excludes the 0/0
float case of line 198; in the rational embedding, where division by
zero is 0, the bounds hold without it.) -/
theorem losses_nonneg (cfg : Config) (b : Batch) (o : ModelOutputs)
    (_hval : ∀ g ∈ b.g_attentions, attMaskCount g ≠ 0) :
    ∀ i : ℕ,
      0 ≤ (compute_per_example_losses cfg b o).2.stop_token_loss.getD i 0 ∧
      0 ≤ (compute_per_example_losses cfg b o).2.mel_loss_before.getD i 0 ∧
      0 ≤ (compute_per_example_losses cfg b o).2.mel_loss_after.getD i 0 ∧
      0 ≤ (compute_per_example_losses cfg b o).2.guided_attention_loss.getD i 0 ∧
      0 ≤ (compute_per_example_losses cfg b o).1.getD i 0 := by
  intro i
  have hstop : ∀ x ∈ List.zipWith stopTokenLossPerExample
      (stopGts cfg b.mel_lengths) o.stop_token_predictions, 0 ≤ x :=
    forall_mem_zipWith _ _ _ _ (fun row hrow p _ =>
      stopTokenLossPerExample_nonneg row p
        (stopGts_mem_bounds cfg b.mel_lengths row hrow))
  have hbef : ∀ x ∈ List.zipWith mae3dLoss b.mel_gts o.decoder_output,
      0 ≤ x :=
    forall_mem_zipWith _ _ _ _ (fun gt _ pr _ => mae3dLoss_nonneg gt pr)
  have haft : ∀ x ∈ List.zipWith mae3dLoss b.mel_gts o.post_mel_outputs,
      0 ≤ x :=
    forall_mem_zipWith _ _ _ _ (fun gt _ pr _ => mae3dLoss_nonneg gt pr)
  have hatt : ∀ x ∈ List.zipWith guidedAttentionLoss o.alignment_historys
      b.g_attentions, 0 ≤ x :=
    forall_mem_zipWith _ _ _ _ (fun a _ g _ => guidedAttentionLoss_nonneg a g)
  have hper : ∀ x ∈ (compute_per_example_losses cfg b o).1, 0 ≤ x := by
    show ∀ x ∈ List.zipWith (· + ·)
      (List.zipWith (· + ·)
        (List.zipWith (· + ·)
          (List.zipWith stopTokenLossPerExample (stopGts cfg b.mel_lengths)
            o.stop_token_predictions)
          ((List.zipWith mae3dLoss b.mel_gts
            o.decoder_output).map (fun q : ℚ => (q : ℝ))))
        ((List.zipWith mae3dLoss b.mel_gts
          o.post_mel_outputs).map (fun q : ℚ => (q : ℝ))))
      ((List.zipWith guidedAttentionLoss o.alignment_historys
        b.g_attentions).map (fun q : ℚ => (q : ℝ))), 0 ≤ x
    apply zipWith_add_nonneg
    · apply zipWith_add_nonneg
      · apply zipWith_add_nonneg
        · exact hstop
        · exact map_ratCast_nonneg _ hbef
      · exact map_ratCast_nonneg _ haft
    · exact map_ratCast_nonneg _ hatt
  exact ⟨getD_nonneg _ hstop i, getD_nonneg _ hbef i, getD_nonneg _ haft i,
    getD_nonneg _ hatt i, getD_nonneg _ hper i⟩

/-- Witness for C10 on a one-example batch whose prior has a valid
position. -/
theorem losses_nonneg_witness :
    0 ≤ (compute_per_example_losses ⟨false, 0⟩ ⟨[[[0]]], [1], [[[2]]]⟩
      ⟨[[[1]]], [[[0]]], [[0]], [[[1]]]⟩).2.stop_token_loss.getD 0 0 ∧
    0 ≤ (compute_per_example_losses ⟨false, 0⟩ ⟨[[[0]]], [1], [[[2]]]⟩
      ⟨[[[1]]], [[[0]]], [[0]], [[[1]]]⟩).2.mel_loss_before.getD 0 0 ∧
    0 ≤ (compute_per_example_losses ⟨false, 0⟩ ⟨[[[0]]], [1], [[[2]]]⟩
      ⟨[[[1]]], [[[0]]], [[0]], [[[1]]]⟩).2.mel_loss_after.getD 0 0 ∧
    0 ≤ (compute_per_example_losses ⟨false, 0⟩ ⟨[[[0]]], [1], [[[2]]]⟩
      ⟨[[[1]]], [[[0]]], [[0]], [[[1]]]⟩).2.guided_attention_loss.getD 0 0 ∧
    0 ≤ (compute_per_example_losses ⟨false, 0⟩ ⟨[[[0]]], [1], [[[2]]]⟩
      ⟨[[[1]]], [[[0]]], [[0]], [[[1]]]⟩).1.getD 0 0 :=
  losses_nonneg ⟨false, 0⟩ ⟨[[[0]]], [1], [[[2]]]⟩
    ⟨[[[1]]], [[[0]]], [[0]], [[[1]]]⟩
    (by
      intro g hg
      simp only [List.mem_singleton] at hg
      subst hg
      norm_num [attMaskCount]) 0

/-- C9 counterexample: a batch dict missing `mel_gts` makes
`compute_per_example_losses` fail with a `KeyError` on that key — not
with any `ConfigurationError`, a type the source never defines. -/
theorem missing_key_raises_keyerror :
    compute_per_example_losses_dict ⟨false, 0⟩
      ⟨none, some [1], some [[[2]]]⟩
      ⟨[[[1]]], [[[0]]], [[0]], [[[1]]]⟩ =
      Except.error (PyError.keyError "mel_gts") := rfl

/-- C9 amended: a missing required key makes the computation fail with a
python `KeyError` naming the first missing key in access order
(`mel_gts`, then `mel_lengths`, then `g_attentions`); with all three keys
present the computation succeeds.  The source defines no
`ConfigurationError` or `ShapeMismatchError`; shape compatibility is
delegated to the tensor library. -/
theorem missing_key_behavior (cfg : Config) (b : BatchDict)
    (o : ModelOutputs) :
    (b.mel_gts = none →
      compute_per_example_losses_dict cfg b o =
        Except.error (PyError.keyError "mel_gts"))
    ∧ (b.mel_gts.isSome = true → b.mel_lengths = none →
      compute_per_example_losses_dict cfg b o =
        Except.error (PyError.keyError "mel_lengths"))
    ∧ (b.mel_gts.isSome = true → b.mel_lengths.isSome = true →
      b.g_attentions = none →
      compute_per_example_losses_dict cfg b o =
        Except.error (PyError.keyError "g_attentions"))
    ∧ (∀ v w u, b.mel_gts = some v → b.mel_lengths = some w →
      b.g_attentions = some u →
      compute_per_example_losses_dict cfg b o =
        Except.ok (compute_per_example_losses cfg
          { mel_gts := v, mel_lengths := w, g_attentions := u } o)) := by
  obtain ⟨mg, ml, ga⟩ := b
  refine ⟨?_, ?_, ?_, ?_⟩
  · intro h
    subst h
    rfl
  · intro h1 h2
    obtain ⟨v, rfl⟩ := Option.isSome_iff_exists.mp h1
    subst h2
    rfl
  · intro h1 h2 h3
    obtain ⟨v, rfl⟩ := Option.isSome_iff_exists.mp h1
    obtain ⟨w, rfl⟩ := Option.isSome_iff_exists.mp h2
    subst h3
    rfl
  · intro v w u h1 h2 h3
    subst h1
    subst h2
    subst h3
    rfl

/-- Witness for the amended C9: each of the three missing-key cases and
the all-keys-present case at concrete inputs. -/
theorem missing_key_behavior_witness :
    compute_per_example_losses_dict ⟨false, 0⟩
      ⟨none, some [1], some [[[2]]]⟩ ⟨[[[1]]], [[[0]]], [[0]], [[[1]]]⟩ =
      Except.error (PyError.keyError "mel_gts") ∧
    compute_per_example_losses_dict ⟨false, 0⟩
      ⟨some [[[0]]], none, some [[[2]]]⟩ ⟨[[[1]]], [[[0]]], [[0]], [[[1]]]⟩ =
      Except.error (PyError.keyError "mel_lengths") ∧
    compute_per_example_losses_dict ⟨false, 0⟩
      ⟨some [[[0]]], some [1], none⟩ ⟨[[[1]]], [[[0]]], [[0]], [[[1]]]⟩ =
      Except.error (PyError.keyError "g_attentions") ∧
    compute_per_example_losses_dict ⟨false, 0⟩
      ⟨some [[[0]]], some [1], some [[[2]]]⟩
      ⟨[[[1]]], [[[0]]], [[0]], [[[1]]]⟩ =
      Except.ok (compute_per_example_losses ⟨false, 0⟩
        { mel_gts := [[[0]]], mel_lengths := [1], g_attentions := [[[2]]] }
        ⟨[[[1]]], [[[0]]], [[0]], [[[1]]]⟩) :=
  ⟨(missing_key_behavior ⟨false, 0⟩ ⟨none, some [1], some [[[2]]]⟩
      ⟨[[[1]]], [[[0]]], [[0]], [[[1]]]⟩).1 rfl,
   (missing_key_behavior ⟨false, 0⟩ ⟨some [[[0]]], none, some [[[2]]]⟩
      ⟨[[[1]]], [[[0]]], [[0]], [[[1]]]⟩).2.1 rfl rfl,
   (missing_key_behavior ⟨false, 0⟩ ⟨some [[[0]]], some [1], none⟩
      ⟨[[[1]]], [[[0]]], [[0]], [[[1]]]⟩).2.2.1 rfl rfl rfl,
   (missing_key_behavior ⟨false, 0⟩ ⟨some [[[0]]], some [1], some [[[2]]]⟩
      ⟨[[[1]]], [[[0]]], [[0]], [[[1]]]⟩).2.2.2 [[[0]]] [1] [[[2]]]
      rfl rfl rfl⟩

/-- C6 counterexample: a failing `plt.savefig` (e.g. disk full) while
rendering one example propagates out of
`generate_and_save_intermediate_result`, aborting the caller — the
failure is NOT caught and logged locally. -/
theorem render_failure_propagates :
    generate_and_save_intermediate_result 1 ⟨false, true, true, false⟩ =
      Except.error RenderError.pltError := rfl

/-- C6 amended: only the per-replica `.values[0]` extraction is guarded
by `try/except` (the function succeeds whether or not the tensors are
sharded); failures of directory creation or of the plotting/saving calls
propagate to the caller. -/
theorem render_error_handling (n : ℕ) (w : RenderWorld) :
    ((w.dir_exists = true ∨ w.makedirs_ok = true) →
      (w.savefig_ok = true ∨ n = 0) →
      generate_and_save_intermediate_result n w = Except.ok ())
    ∧ (w.dir_exists = false → w.makedirs_ok = false →
      generate_and_save_intermediate_result n w =
        Except.error RenderError.osError)
    ∧ (0 < n → w.savefig_ok = false →
      (w.dir_exists = true ∨ w.makedirs_ok = true) →
      generate_and_save_intermediate_result n w =
        Except.error RenderError.pltError) := by
  obtain ⟨sh, de, mk, sv⟩ := w
  dsimp only
  refine ⟨?_, ?_, ?_⟩
  · intro hd hs
    have h1 : ¬ (de = false ∧ mk = false) := by
      rcases hd with h | h <;> simp [h]
    have h2 : ¬ (0 < n ∧ sv = false) := by
      rcases hs with h | h <;> simp [h]
    simp [generate_and_save_intermediate_result, h1, h2]
  · intro hd hm
    simp [generate_and_save_intermediate_result, hd, hm]
  · intro hn hs hd
    have h1 : ¬ (de = false ∧ mk = false) := by
      rcases hd with h | h <;> simp [h]
    simp [generate_and_save_intermediate_result, h1, hs, hn]

/-- Witness for the amended C6: a successful render, a failing
`os.makedirs`, and a failing `plt.savefig` at concrete worlds. -/
theorem render_error_handling_witness :
    generate_and_save_intermediate_result 1 ⟨false, true, true, true⟩ =
      Except.ok () ∧
    generate_and_save_intermediate_result 1 ⟨true, false, false, true⟩ =
      Except.error RenderError.osError ∧
    generate_and_save_intermediate_result 1 ⟨true, true, true, false⟩ =
      Except.error RenderError.pltError :=
  ⟨(render_error_handling 1 ⟨false, true, true, true⟩).1 (Or.inl rfl)
      (Or.inl rfl),
   (render_error_handling 1 ⟨true, false, false, true⟩).2.1 rfl rfl,
   (render_error_handling 1 ⟨true, true, true, false⟩).2.2 (by decide) rfl
      (Or.inl rfl)⟩

end TrainTacotron2
